import Mathlib

/-!
Verification of the browserinfo repository: a shallow embedding of the
address utilities, geolocation/PTR clients, DNSSEC prober and the two HTTP
route handlers, together with theorems settling the frozen claims.

JavaScript strings are embedded as `List Char`; the JS string operations
used by the source (`split`, `padStart`, `join`, `trim`, `includes`,
`replace(/\.$/ , "")`, template interpolation of numbers) are modelled as
executable functions below.  Network calls (`fetch`) are modelled by
passing the upstream response as an explicit oracle parameter, so every
handler is a pure function of its inputs and of the upstream data.
-/

/-- Decides whether `pat` is a prefix of the second list (JS `startsWith`
on the character level). -/
def isPrefixCh : List Char → List Char → Bool
  | [], _ => true
  | _ :: _, [] => false
  | p :: ps, c :: cs => p == c && isPrefixCh ps cs

/-- Decides whether `pat` occurs as a contiguous substring of `l`
(JS `String.prototype.includes`). -/
def containsSub : List Char → List Char → Bool
  | [], pat => isPrefixCh pat []
  | c :: cs, pat => isPrefixCh pat (c :: cs) || containsSub cs pat

/-- JS `s.includes(pat)`. -/
def strContains (s pat : String) : Bool :=
  containsSub s.toList pat.toList

/-- The decimal digit character for `n < 10`. -/
def digitChar10 (n : Nat) : Char :=
  match n with
  | 0 => '0' | 1 => '1' | 2 => '2' | 3 => '3' | 4 => '4'
  | 5 => '5' | 6 => '6' | 7 => '7' | 8 => '8' | _ => '9'

/-- Decimal digit list of a natural number (most significant first);
models JS number-to-string conversion for nonnegative integers, as used by
template interpolation. -/
def natDigits (n : Nat) : List Char :=
  if n < 10 then [digitChar10 n]
  else natDigits (n / 10) ++ [digitChar10 (n % 10)]
decreasing_by exact Nat.div_lt_self (by omega) (by omega)

/-- JS template interpolation of a nonnegative number into a string. -/
def natStr (n : Nat) : String :=
  (natDigits n).asString

/-- JS `str.split(sep)` for a one-character separator. -/
def splitOnChar (a : Char) : List Char → List (List Char)
  | [] => [[]]
  | c :: cs =>
    if c == a then [] :: splitOnChar a cs
    else
      match splitOnChar a cs with
      | [] => [[c]]
      | g :: gs => (c :: g) :: gs

/-- JS `str.split(sep)` for a two-character separator (used for `"::"`);
splits at every non-overlapping occurrence, scanning left to right. -/
def splitTwo (a b : Char) : List Char → List (List Char)
  | [] => [[]]
  | [c] => [[c]]
  | c :: d :: rest =>
    if c == a && d == b then [] :: splitTwo a b rest
    else
      match splitTwo a b (d :: rest) with
      | [] => [[c]]
      | g :: gs => (c :: g) :: gs

/-- Whether the two-character pattern `[a, b]` occurs in the list. -/
def hasOcc2 (a b : Char) : List Char → Bool
  | c :: d :: rest => (c == a && d == b) || hasOcc2 a b (d :: rest)
  | _ => false

/-- JS `array.join(sep)` on lists of characters. -/
def joinSep (sep : List Char) : List (List Char) → List Char
  | [] => []
  | [g] => g
  | g :: gs => g ++ sep ++ joinSep sep gs

/-- JS `group.padStart(4, "0")`. -/
def pad4 (g : List Char) : List Char :=
  List.replicate (4 - g.length) '0' ++ g

/-- An all-zero IPv6 group, as inserted for the `::` compression marker. -/
def zeroGroup : List Char := ['0', '0', '0', '0']

/-- JS `a || b` on nullable strings: `null`/`undefined` and the empty
string are falsy and fall through to `b`. -/
def jsOr (a b : Option String) : Option String :=
  match a with
  | some s => if s = "" then b else some s
  | none => b

/-- JS `a || b` where the right operand is a plain string. -/
def jsOrD (a : Option String) (b : String) : String :=
  match a with
  | some s => if s = "" then b else s
  | none => b

/-! ## DNSSEC prober (src/routes/index.tsx) -/

/-- Body of a Google DoH `application/dns-json` response, as read by
`testDnssec` (the `Answer` array is never consulted there).  A missing
`AD` field is falsy in JS and is modelled as `false`. -/
structure DnsResponse where
  Status : Nat
  AD : Bool := false
deriving DecidableEq

/-- Outcome of a `fetch` of the DoH resolver: the promise rejected with an
error message, or an HTTP response arrived with the given `ok` flag and
parsed JSON body. -/
inductive FetchOutcome where
  | fetchError (msg : String)
  | httpResponse (ok : Bool) (body : DnsResponse)
deriving DecidableEq

/-- Result record of `testDnssec`. -/
structure ProbeResult where
  passed : Bool
  error : Option String := none
deriving DecidableEq

/-- `testDnssec` from src/routes/index.tsx, with the network interaction
for the queried domain supplied as the `outcome` argument. -/
def testDnssec (outcome : FetchOutcome) (testType : String) : ProbeResult :=
  match outcome with
  | .fetchError msg => ⟨false, some msg⟩
  | .httpResponse ok data =>
    if !ok then ⟨false, some "DNS query failed"⟩
    else if testType = "valid" then
      if data.Status = 0 then ⟨true, none⟩
      else ⟨false, some "Domain did not resolve"⟩
    else if testType = "invalid" ∨ testType = "expired" then
      if data.Status = 2 then ⟨true, none⟩
      else if data.Status = 0 then ⟨false, some "Resolver accepted invalid signature"⟩
      else ⟨false, some ("Unexpected status: " ++ natStr data.Status)⟩
    else if testType = "missing" then
      if data.Status = 0 ∧ !data.AD then ⟨true, none⟩
      else if data.Status = 0 ∧ data.AD then ⟨true, none⟩
      else ⟨false, some "Domain did not resolve"⟩
    else ⟨false, some "Unknown test type"⟩

/-- Primary DNSSEC test-domain catalog (`DNSSEC_TEST_DOMAINS`); the
`""` default models the `undefined` cases never reached after the
handler's enum validation. -/
def DNSSEC_TEST_DOMAINS (alg t : String) : String :=
  match alg, t with
  | "ecdsa256", "valid" => "good.ecdsa256.dnssec.works"
  | "ecdsa256", "invalid" => "bad.ecdsa256.dnssec.works"
  | "ecdsa256", "expired" => "expired.ecdsa256.dnssec.works"
  | "ecdsa256", "missing" => "nosig.ecdsa256.dnssec.works"
  | "ecdsa384", "valid" => "good.ecdsa384.dnssec.works"
  | "ecdsa384", "invalid" => "bad.ecdsa384.dnssec.works"
  | "ecdsa384", "expired" => "expired.ecdsa384.dnssec.works"
  | "ecdsa384", "missing" => "nosig.ecdsa384.dnssec.works"
  | "ed25519", "valid" => "good.ed25519.dnssec.works"
  | "ed25519", "invalid" => "bad.ed25519.dnssec.works"
  | "ed25519", "expired" => "expired.ed25519.dnssec.works"
  | "ed25519", "missing" => "nosig.ed25519.dnssec.works"
  | _, _ => ""

/-- Alternate DNSSEC test-domain catalog (`ALT_TEST_DOMAINS`). -/
def ALT_TEST_DOMAINS (alg t : String) : String :=
  match alg, t with
  | "ecdsa256", "valid" => "dnssec-tools.org"
  | "ecdsa256", "invalid" => "dnssec-failed.org"
  | "ecdsa256", "expired" => "dnssec-failed.org"
  | "ecdsa256", "missing" => "example.com"
  | "ecdsa384", "valid" => "cloudflare.com"
  | "ecdsa384", "invalid" => "dnssec-failed.org"
  | "ecdsa384", "expired" => "dnssec-failed.org"
  | "ecdsa384", "missing" => "example.com"
  | "ed25519", "valid" => "ietf.org"
  | "ed25519", "invalid" => "dnssec-failed.org"
  | "ed25519", "expired" => "dnssec-failed.org"
  | "ed25519", "missing" => "example.com"
  | _, _ => ""

def validAlgorithms : List String := ["ecdsa256", "ecdsa384", "ed25519"]

def validTests : List String := ["valid", "invalid", "expired", "missing"]

/-- `result.error?.includes("query failed")` with JS optional chaining. -/
def errIncludesQueryFailed (r : ProbeResult) : Bool :=
  match r.error with
  | some e => strContains e "query failed"
  | none => false

/-- JSON body (plus HTTP status) returned by the `/api/dnssec` handler.
Field order: status, success, error, domain, algorithm, testType, passed. -/
structure DnssecResponse where
  status : Nat
  success : Bool
  error : Option String := none
  domain : Option String := none
  algorithm : Option String := none
  testType : Option String := none
  passed : Option Bool := none
deriving DecidableEq

/-- The 200 response assembled by the `/api/dnssec` handler from a probe
result. -/
def mkDnssecOk (dom alg t : String) (r : ProbeResult) : DnssecResponse :=
  ⟨200, true, r.error, some dom, some alg, some t, some r.passed⟩

/-- The GET handler of `/api/dnssec` (src/routes/index.tsx).  The two
query parameters are `none` when absent; `env` maps a queried domain to
the upstream DoH interaction for it (the handler queries at most the
primary and the alternate catalog domain). -/
def dnssecGET (algorithmParam testParam : Option String)
    (env : String → FetchOutcome) : DnssecResponse :=
  let algorithm := jsOrD algorithmParam "ecdsa256"
  let testType := jsOrD testParam "valid"
  if algorithm ∉ validAlgorithms then
    ⟨400, false, some "Invalid algorithm", none, none, none, none⟩
  else if testType ∉ validTests then
    ⟨400, false, some "Invalid test type", none, none, none, none⟩
  else
    let domain := DNSSEC_TEST_DOMAINS algorithm testType
    let result := testDnssec (env domain) testType
    if !result.passed && errIncludesQueryFailed result then
      let domain2 := ALT_TEST_DOMAINS algorithm testType
      mkDnssecOk domain2 algorithm testType (testDnssec (env domain2) testType)
    else
      mkDnssecOk domain algorithm testType result

/-- A query parameter that is present with a nonempty value outside the
permitted enum. -/
def presentInvalid (o : Option String) (valids : List String) : Prop :=
  ∃ s, o = some s ∧ s ≠ "" ∧ s ∉ valids

/-! ## Address utilities (src/routes/api/ip.ts) -/

/-- `expandIPv6` from src/routes/api/ip.ts, on character lists.  JS
`split("::")` is `splitTwo`, the `parts[0] ? ... : []` truthiness guards
are the emptiness tests, `Array(missing).fill("0000")` is the replicate
(with JS `Array(n)` on negative `n` unreachable for the claim's domain,
Nat subtraction truncating at 0 instead), and `padStart(4, "0")` is
`pad4`. -/
def expandIPv6Core (l : List Char) : List Char :=
  let parts := splitTwo ':' ':' l
  let left := match parts with
    | p :: _ => if p = [] then [] else splitOnChar ':' p
    | [] => []
  let right := match parts with
    | _ :: p :: _ => if p = [] then [] else splitOnChar ':' p
    | _ => []
  let missing := 8 - left.length - right.length
  let middle := List.replicate missing zeroGroup
  let full := left ++ middle ++ right
  joinSep [':'] (List.map pad4 full)

/-- `expandIPv6` on strings. -/
def expandIPv6 (ip : String) : String :=
  (expandIPv6Core ip.toList).asString

/-- PTR query-domain construction: inlined in `getPtrRecord` in
src/routes/api/ip.ts (lines 52-65) and called `buildPtrName` by the spec.
The IPv6 branch models `expanded.replace(/:/g, "").split("").reverse()
.join(".")`, the IPv4 branch `ip.split(".").reverse().join(".")`. -/
def buildPtrNameCore (ip : List Char) : List Char :=
  if ':' ∈ ip then
    let expanded := expandIPv6Core ip
    let nibbles :=
      joinSep ['.'] (List.map (fun c => [c]) ((expanded.filter (fun c => c != ':')).reverse))
    nibbles ++ ".ip6.arpa".toList
  else
    let octets := joinSep ['.'] ((splitOnChar '.' ip).reverse)
    octets ++ ".in-addr.arpa".toList

/-- `buildPtrName` on strings. -/
def buildPtrName (ip : String) : String :=
  (buildPtrNameCore ip.toList).asString

/-! ## IP detection endpoint (src/routes/api/ip.ts, src/unnamed/part_000) -/

/-- Response record of ipinfo.io, as declared by the source interface
`IpInfoResponse` (same field order). -/
structure IpInfoResponse where
  ip : String
  hostname : Option String := none
  city : Option String := none
  region : Option String := none
  country : Option String := none
  loc : Option String := none
  org : Option String := none
  postal : Option String := none
  timezone : Option String := none
deriving DecidableEq

/-- Response body of ip-api.com, as read by the fallback branch of
`getIpInfo`. -/
structure IpApiResponse where
  status : String
  query : String
  city : Option String := none
  regionName : Option String := none
  country : Option String := none
  isp : Option String := none
  timezone : Option String := none
deriving DecidableEq

/-- One answer record of the Cloudflare DoH JSON body. -/
structure PtrAnswer where
  name : String := ""
  type : Nat := 0
  TTL : Nat := 0
  data : String
deriving DecidableEq

/-- Cloudflare DoH JSON body for the PTR query; a missing `Answer` field
is falsy in JS and is modelled as `[]`. -/
structure DohResponse where
  Status : Nat := 0
  Answer : List PtrAnswer := []
deriving DecidableEq

/-- A JSON-returning HTTP service, keyed by request URL: `none` models a
rejected fetch, `some (ok, body)` a response with its `ok` flag and parsed
body. -/
def Svc (α : Type) : Type := String → Option (Bool × α)

def ipinfoUrl (ip : String) : String := "https://ipinfo.io/" ++ ip ++ "/json"

def ipApiUrl (ip : String) : String := "http://ip-api.com/json/" ++ ip

def dohPtrUrl (ptrDomain : String) : String :=
  "https://cloudflare-dns.com/dns-query?name=" ++ ptrDomain ++ "&type=PTR"

/-- `getIpInfo` from src/routes/api/ip.ts: primary ipinfo.io lookup with a
fallback to ip-api.com normalised to the same shape; `none` when both
fail. -/
def getIpInfo (ip : String) (infoSvc : Svc IpInfoResponse)
    (apiSvc : Svc IpApiResponse) : Option IpInfoResponse :=
  match infoSvc (ipinfoUrl ip) with
  | some (true, body) => some body
  | _ =>
    match apiSvc (ipApiUrl ip) with
    | some (true, d) =>
      if d.status = "success" then
        some ⟨d.query, none, d.city, d.regionName, d.country, none, d.isp, none, d.timezone⟩
      else none
    | _ => none

/-- JS `s.replace(/\.$/, "")`: strip one trailing dot. -/
def stripTrailingDot (s : String) : String :=
  if s.toList.getLast? = some '.' then (s.toList.dropLast).asString else s

/-- `getPtrRecord` from src/routes/api/ip.ts: builds the PTR domain (the
logic of `buildPtrNameCore`, inlined there), queries the Cloudflare DoH
resolver and returns the first answer's data minus its trailing dot;
`none` on no answer or failure. -/
def getPtrRecord (ip : String) (dohSvc : Svc DohResponse) : Option String :=
  let ptrDomain := (buildPtrNameCore ip.toList).asString
  match dohSvc (dohPtrUrl ptrDomain) with
  | some (true, d) =>
    match d.Answer with
    | a :: _ => some (stripTrailingDot a.data)
    | [] => none
  | _ => none

/-- JS whitespace test used by `trim` (the header values involved are
ASCII). -/
def isWS (c : Char) : Bool :=
  c == ' ' || c == '\t' || c == '\n' || c == '\r'

/-- JS `s.trim()` on ASCII strings. -/
def trimChars (l : List Char) : List Char :=
  ((l.dropWhile isWS).reverse.dropWhile isWS).reverse

/-- `forwardedFor?.split(",")[0].trim()` with optional chaining. -/
def xffFirst (xff : Option String) : Option String :=
  xff.map (fun s => (trimChars ((splitOnChar ',' s.toList).headD [])).asString)

/-- Client-IP extraction from headers in src/routes/api/ip.ts lines
111-116: `cfConnectingIp || forwardedFor?.split(",")[0].trim() || realIp`.
A header is `none` when absent and `some ""` when present but empty. -/
def extractClientIp (cf xff realIp : Option String) : Option String :=
  jsOr cf (jsOr (xffFirst xff) realIp)

/-- The same extraction in the variant handler (src/unnamed/part_000,
lines 124-131), which falls back to the connection address last. -/
def extractClientIpWithRemote (cf xff realIp : Option String) (remote : String) : String :=
  jsOrD cf (jsOrD (xffFirst xff) (jsOrD realIp remote))

/-- JSON body (plus HTTP status) of `/api/ip` responses.  Field order:
status, success, error, ip, version, hostname, city, region, country,
org, timezone. -/
structure IpResponse where
  status : Nat
  success : Bool
  error : Option String := none
  ip : Option String := none
  version : Option String := none
  hostname : Option String := none
  city : Option String := none
  region : Option String := none
  country : Option String := none
  org : Option String := none
  timezone : Option String := none
deriving DecidableEq

/-- An error response of the `/api/ip` handler. -/
def ipErrorResponse (status : Nat) (msg : String) : IpResponse :=
  ⟨status, false, some msg, none, none, none, none, none, none, none, none⟩

/-- The success body assembled at the end of the `/api/ip` handler:
`hostname` is `ptrRecord || ipInfo?.hostname`, the remaining geolocation
fields use optional chaining. -/
def ipOkResponse (finalIp : String) (info : Option IpInfoResponse)
    (ptr : Option String) : IpResponse :=
  ⟨200, true, none, some finalIp,
    some (if ':' ∈ finalIp.toList then "IPv6" else "IPv4"),
    jsOr ptr (info.bind (fun r => r.hostname)),
    info.bind (fun r => r.city), info.bind (fun r => r.region),
    info.bind (fun r => r.country), info.bind (fun r => r.org),
    info.bind (fun r => r.timezone)⟩

/-- The GET handler of `/api/ip` (src/routes/api/ip.ts lines 105-211).
`version` is the query parameter; `cf`, `xff`, `realIp` the three headers;
`echo4` / `echo6` the `data.ip` value of the two ipify echo services
(`none` = fetch or json rejected, `some ""` models a missing `ip` field);
the `Svc` arguments are the geolocation and DoH upstreams. -/
def ipGET (version : Option String) (cf xff realIp : Option String)
    (echo4 echo6 : Option String)
    (infoSvc : Svc IpInfoResponse) (apiSvc : Svc IpApiResponse)
    (dohSvc : Svc DohResponse) : IpResponse :=
  let clientIp0 := extractClientIp cf xff realIp
  let needDetect : Prop := clientIp0 = none ∨ clientIp0 = some ""
    ∨ clientIp0 = some "127.0.0.1" ∨ clientIp0 = some "::1"
  let detected : Option String :=
    if needDetect then
      if version = some "4" then echo4
      else if version = some "6" then echo6
      else echo4
    else clientIp0
  match detected with
  | none => ipErrorResponse 500 "Could not detect IP address"
  | some clientIp =>
    if clientIp = "" then ipErrorResponse 500 "Could not detect IP address"
    else
      let finalIp := clientIp
      let isIPv6 : Prop := ':' ∈ finalIp.toList
      if version = some "6" ∧ ¬isIPv6 then
        match echo6 with
        | some s =>
          if s ≠ "" ∧ ':' ∈ s.toList then
            ipOkResponse s (getIpInfo s infoSvc apiSvc) (getPtrRecord s dohSvc)
          else ipErrorResponse 200 "No IPv6 connectivity"
        | none => ipErrorResponse 200 "No IPv6 connectivity"
      else if version = some "4" ∧ isIPv6 then
        match echo4 with
        | some s =>
          if s ≠ "" ∧ ':' ∉ s.toList then
            ipOkResponse s (getIpInfo s infoSvc apiSvc) (getPtrRecord s dohSvc)
          else ipErrorResponse 200 "No IPv4 connectivity"
        | none => ipErrorResponse 200 "No IPv4 connectivity"
      else ipOkResponse finalIp (getIpInfo finalIp infoSvc apiSvc) (getPtrRecord finalIp dohSvc)

/-! ## Private-address classification (src/islands/BrowserInfo.tsx) -/

/-- Decimal digit test. -/
def isDigitCh (c : Char) : Bool := 48 ≤ c.toNat && c.toNat ≤ 57

/-- JS `Number(str)` on the inputs reachable from splitting an address:
the empty string is 0, a string of decimal digits is its value, and
anything else is NaN (`none`).  (Signs, exponents and hex literals, which
JS `Number` would also accept, cannot occur in a dotted quad's parts.) -/
def jsNumber (l : List Char) : Option Nat :=
  if l.all isDigitCh then some (l.foldl (fun a c => 10 * a + (c.toNat - 48)) 0)
  else none

/-- JS `===` between a parsed part (number or NaN) and a literal; NaN
compares false. -/
def optEq (o : Option Nat) (n : Nat) : Bool :=
  match o with
  | some v => decide (v = n)
  | none => false

/-- JS `>=` where the left side may be NaN (then false). -/
def optGe (o : Option Nat) (n : Nat) : Bool :=
  match o with
  | some v => decide (n ≤ v)
  | none => false

/-- JS `<=` where the left side may be NaN (then false). -/
def optLe (o : Option Nat) (n : Nat) : Bool :=
  match o with
  | some v => decide (v ≤ n)
  | none => false

/-- `isPrivateIPv4` from src/islands/BrowserInfo.tsx lines 520-534
(`ip.split(".").map(Number)` and the five early-return range checks). -/
def isPrivateIPv4 (ip : String) : Bool :=
  let parts := (splitOnChar '.' ip.toList).map jsNumber
  if parts.length ≠ 4 then false
  else
    optEq (parts.getD 0 none) 10
    || (optEq (parts.getD 0 none) 172 && optGe (parts.getD 1 none) 16
        && optLe (parts.getD 1 none) 31)
    || (optEq (parts.getD 0 none) 192 && optEq (parts.getD 1 none) 168)
    || (optEq (parts.getD 0 none) 100 && optGe (parts.getD 1 none) 64
        && optLe (parts.getD 1 none) 127)
    || (optEq (parts.getD 0 none) 169 && optEq (parts.getD 1 none) 254)

/-- ASCII lower-casing, the behavior of JS `toLowerCase` on the ASCII
range (the only characters appearing in addresses). -/
def toLowerAscii (c : Char) : Char :=
  if 65 ≤ c.toNat ∧ c.toNat ≤ 90 then Char.ofNat (c.toNat + 32) else c

/-- The regex test `/^fe[89ab]/`. -/
def testFe89ab (l : List Char) : Bool :=
  match l with
  | c0 :: c1 :: c2 :: _ =>
    c0 == 'f' && c1 == 'e' && (c2 == '8' || c2 == '9' || c2 == 'a' || c2 == 'b')
  | _ => false

/-- The regex test `/^f[cd]/`. -/
def testFcd (l : List Char) : Bool :=
  match l with
  | c0 :: c1 :: _ => c0 == 'f' && (c1 == 'c' || c1 == 'd')
  | _ => false

/-- `isPrivateIPv6` from src/islands/BrowserInfo.tsx lines 536-545:
lower-case the address, test `/^fe[89ab]/` and `/^f[cd]/`, compare with
`"::1"`. -/
def isPrivateIPv6 (ip : String) : Bool :=
  let lower := ip.toList.map toLowerAscii
  testFe89ab lower || testFcd lower || decide (lower = [':', ':', '1'])

/-- Lower-case hexadecimal digits (as a membership set; the order is
irrelevant). -/
def hexChars : List Char :=
  ['f', 'e', 'd', 'c', 'b', 'a', '9', '8', '7', '6', '5', '4', '3', '2', '1', '0']

/-- Hexadecimal digits of either case. -/
def hexDigitsBoth : List Char :=
  hexChars ++ ['A', 'B', 'C', 'D', 'E', 'F']

def isHexLower (c : Char) : Bool := decide (c ∈ hexChars)

def isHexDigit (c : Char) : Bool := decide (c ∈ hexDigitsBoth)

/-- Value of a lower-case hex digit. -/
def hexDigitVal (c : Char) : Nat :=
  match c with
  | '0' => 0 | '1' => 1 | '2' => 2 | '3' => 3 | '4' => 4 | '5' => 5 | '6' => 6
  | '7' => 7 | '8' => 8 | '9' => 9 | 'a' => 10 | 'b' => 11 | 'c' => 12
  | 'd' => 13 | 'e' => 14 | _ => 15

/-- Value of a hex group. -/
def hexVal (g : List Char) : Nat :=
  g.foldl (fun a c => 16 * a + hexDigitVal c) 0

/-- Semantic reading of an IPv6 address string, modelled from the spec's
CIDR notation: the 8 group values of the canonical expansion of the
(lower-cased) address, when that expansion is well-formed; `none`
otherwise.  Used to state what address a string denotes. -/
def ipv6Groups (ip : String) : Option (List Nat) :=
  let gs := splitOnChar ':' (expandIPv6Core (ip.toList.map toLowerAscii))
  if gs.length = 8 ∧ ∀ g ∈ gs, g.length = 4 ∧ g.all isHexLower then
    some (gs.map hexVal)
  else none

/-- The denoted address lies in fe80::/10 (first 10 bits 1111111010),
i.e. its leading 16-bit group lies in [0xfe80, 0xfebf]. -/
def inFe80 (ip : String) : Bool :=
  match ipv6Groups ip with
  | some (g0 :: _) => decide (0xfe80 ≤ g0 ∧ g0 ≤ 0xfebf)
  | _ => false

/-- The denoted address lies in fc00::/7 (first 7 bits 1111110),
i.e. its leading 16-bit group lies in [0xfc00, 0xfdff]. -/
def inFc00 (ip : String) : Bool :=
  match ipv6Groups ip with
  | some (g0 :: _) => decide (0xfc00 ≤ g0 ∧ g0 ≤ 0xfdff)
  | _ => false

/-- The denoted address is the loopback ::1. -/
def isLoopback6 (ip : String) : Bool :=
  ipv6Groups ip == some [0, 0, 0, 0, 0, 0, 0, 1]

/-! ## Helper lemmas -/

def digitChars : List Char := ['0', '1', '2', '3', '4', '5', '6', '7', '8', '9']

theorem digitChar10_mem (n : Nat) : digitChar10 n ∈ digitChars := by
  unfold digitChar10
  split <;> decide

theorem natDigits_subset (n : Nat) : ∀ c ∈ natDigits n, c ∈ digitChars := by
  induction n using Nat.strong_induction_on with
  | _ n ih =>
    rw [natDigits]
    split
    · intro c hc
      rw [List.mem_singleton] at hc
      subst hc
      exact digitChar10_mem n
    · intro c hc
      rcases List.mem_append.mp hc with h1 | h2
      · exact ih (n / 10) (Nat.div_lt_self (by omega) (by omega)) c h1
      · rw [List.mem_singleton] at h2
        subst h2
        exact digitChar10_mem _

theorem containsSub_head_notMem (l : List Char) (c : Char) (p : List Char)
    (h : c ∉ l) : containsSub l (c :: p) = false := by
  induction l with
  | nil => rfl
  | cons d ds ih =>
    have h1 : c ≠ d := fun e => h (e ▸ List.mem_cons_self d ds)
    have h2 : c ∉ ds := fun e => h (List.mem_cons_of_mem d e)
    simp [containsSub, isPrefixCh, ih h2, beq_eq_false_iff_ne.mpr h1]

theorem toList_append (a b : String) : (a ++ b).toList = a.toList ++ b.toList := by
  show (a ++ b).data = a.data ++ b.data
  exact String.data_append a b

theorem unexpected_ne_resolver (s : Nat) :
    ("Unexpected status: " ++ natStr s) ≠ "Resolver accepted invalid signature" := by
  intro h
  have h2 := congrArg String.toList h
  rw [toList_append] at h2
  have h3 : "Unexpected status: ".toList = 'U' :: "nexpected status: ".toList := rfl
  have h4 : "Resolver accepted invalid signature".toList
      = 'R' :: "esolver accepted invalid signature".toList := rfl
  rw [h3, h4, List.cons_append] at h2
  injection h2 with h5 _
  exact absurd h5 (by decide)

theorem unexpected_no_query_failed (s : Nat) :
    strContains ("Unexpected status: " ++ natStr s) "query failed" = false := by
  have hsplit : ("Unexpected status: " ++ natStr s).toList
      = "Unexpected status: ".toList ++ natDigits s := by
    show ("Unexpected status: " ++ natStr s).data = _
    rw [String.data_append]
    rfl
  have hq : 'q' ∉ ("Unexpected status: " ++ natStr s).toList := by
    rw [hsplit]
    intro hmem
    rcases List.mem_append.mp hmem with h | h
    · revert h
      decide
    · have hd := natDigits_subset s 'q' h
      revert hd
      decide
  show containsSub _ ("query failed").toList = false
  exact containsSub_head_notMem _ 'q' _ hq

/-! ## Claim theorems: DNSSEC probe classification -/

/-- Claim C1: for a DNSSEC probe with condition `invalid` or `expired`,
given an upstream DoH response with status `s`, the probe passes iff
`s = SERVFAIL (2)`; it fails with "Resolver accepted invalid signature"
iff `s = NOERROR (0)`; and for every other status it fails with an
"Unexpected status" error. -/
theorem C1_invalid_expired_classification (t : String) (s : Nat) (ad : Bool)
    (ht : t = "invalid" ∨ t = "expired") :
    testDnssec (.httpResponse true ⟨s, ad⟩) t
        = (if s = 2 then ⟨true, none⟩
           else if s = 0 then ⟨false, some "Resolver accepted invalid signature"⟩
           else ⟨false, some ("Unexpected status: " ++ natStr s)⟩)
      ∧ ((testDnssec (.httpResponse true ⟨s, ad⟩) t).passed = true ↔ s = 2)
      ∧ (testDnssec (.httpResponse true ⟨s, ad⟩) t
           = ⟨false, some "Resolver accepted invalid signature"⟩ ↔ s = 0) := by
  have heq : testDnssec (.httpResponse true ⟨s, ad⟩) t
      = (if s = 2 then ⟨true, none⟩
         else if s = 0 then ⟨false, some "Resolver accepted invalid signature"⟩
         else ⟨false, some ("Unexpected status: " ++ natStr s)⟩) := by
    rcases ht with rfl | rfl <;> simp [testDnssec]
  refine ⟨heq, ?_, ?_⟩ <;> rw [heq] <;> split_ifs with h1 h2 <;>
    simp_all [unexpected_ne_resolver]

/-- Witness for C1 at condition `invalid`, status SERVFAIL. -/
theorem C1_witness :
    (("invalid" : String) = "invalid" ∨ ("invalid" : String) = "expired")
      ∧ (testDnssec (.httpResponse true ⟨2, false⟩) "invalid").passed = true := by
  have h := C1_invalid_expired_classification "invalid" 2 false (Or.inl rfl)
  exact ⟨Or.inl rfl, h.2.1.mpr rfl⟩

/-- Claim C3: for a DNSSEC probe with condition `missing`, given an
upstream DoH response with status `s` and authenticated-data flag `ad`,
the probe passes iff `s = NOERROR (0)`, and the result is the same for
both values of the AD flag; any other status fails. -/
theorem C3_missing_classification (s : Nat) (ad : Bool) :
    testDnssec (.httpResponse true ⟨s, ad⟩) "missing"
        = (if s = 0 then ⟨true, none⟩ else ⟨false, some "Domain did not resolve"⟩)
      ∧ ((testDnssec (.httpResponse true ⟨s, ad⟩) "missing").passed = true ↔ s = 0)
      ∧ testDnssec (.httpResponse true ⟨s, true⟩) "missing"
          = testDnssec (.httpResponse true ⟨s, false⟩) "missing" := by
  have heq : ∀ b : Bool, testDnssec (.httpResponse true ⟨s, b⟩) "missing"
      = (if s = 0 then ⟨true, none⟩ else ⟨false, some "Domain did not resolve"⟩) := by
    intro b
    cases b <;> simp [testDnssec]
  refine ⟨heq ad, ?_, by rw [heq true, heq false]⟩
  rw [heq ad]
  split_ifs with h1 <;> simp_all

/-! ## DNSSEC handler lemmas -/

theorem validAlg_ne_empty {a : String} (h : a ∈ validAlgorithms) : a ≠ "" := by
  simp only [validAlgorithms, List.mem_cons, List.mem_singleton, List.not_mem_nil] at h
  rcases h with rfl | rfl | rfl | h <;> first | decide | exact absurd h (by simp)

theorem validTest_ne_empty {t : String} (h : t ∈ validTests) : t ≠ "" := by
  simp only [validTests, List.mem_cons, List.mem_singleton, List.not_mem_nil] at h
  rcases h with rfl | rfl | rfl | rfl | h <;> first | decide | exact absurd h (by simp)

theorem statusResult_no_fallback (d : DnsResponse) (t : String) (ht : t ∈ validTests) :
    errIncludesQueryFailed (testDnssec (.httpResponse true d) t) = false := by
  simp only [validTests, List.mem_cons, List.not_mem_nil, or_false] at ht
  rcases ht with rfl | rfl | rfl | rfl <;>
    simp only [testDnssec, Bool.not_true] <;>
    split_ifs <;>
      first
      | decide
      | (simp_all; done)
      | exact unexpected_no_query_failed d.Status

theorem dnssecGET_valid (a t : String) (env : String → FetchOutcome)
    (ha : a ∈ validAlgorithms) (ht : t ∈ validTests) :
    dnssecGET (some a) (some t) env
      = (if !(testDnssec (env (DNSSEC_TEST_DOMAINS a t)) t).passed
            && errIncludesQueryFailed (testDnssec (env (DNSSEC_TEST_DOMAINS a t)) t) then
          mkDnssecOk (ALT_TEST_DOMAINS a t) a t (testDnssec (env (ALT_TEST_DOMAINS a t)) t)
        else
          mkDnssecOk (DNSSEC_TEST_DOMAINS a t) a t
            (testDnssec (env (DNSSEC_TEST_DOMAINS a t)) t)) := by
  have hae : jsOrD (some a) "ecdsa256" = a := by
    simp [jsOrD, validAlg_ne_empty ha]
  have hte : jsOrD (some t) "valid" = t := by
    simp [jsOrD, validTest_ne_empty ht]
  simp only [dnssecGET, hae, hte, ha, ht, not_true_eq_false, if_false]

/-! ## Claim C2: fallback behavior -/

/-- Claim C2 is refuted by this closed computation: for
(ecdsa256, invalid), the primary probe's HTTP query fails at the network
level (the fetch promise rejects with "Connection reset"), yet the handler
does NOT retry the alternate catalog: the response still names the primary
domain `bad.ecdsa256.dnssec.works` and carries the raw error, although the
alternate domain's probe (reachable here and answering SERVFAIL) would
have passed.  The fallback therefore does not fire on every network-level
failure, only on error messages containing "query failed". -/
theorem C2_counterexample :
    dnssecGET (some "ecdsa256") (some "invalid")
        (fun s => if s = "bad.ecdsa256.dnssec.works" then .fetchError "Connection reset"
                  else .httpResponse true ⟨2, false⟩)
      = ⟨200, true, some "Connection reset", some "bad.ecdsa256.dnssec.works",
          some "ecdsa256", some "invalid", some false⟩
    ∧ testDnssec (.httpResponse true ⟨2, false⟩) "invalid" = ⟨true, none⟩ := by
  refine ⟨by decide, by decide⟩

/-- Claim C2 (amended): for every valid (algorithm, condition) pair, the
handler consults the alternate catalog exactly when the first probe's
result is a failure whose error message contains "query failed" — that is,
always when the DoH HTTP response was not OK, for a rejected fetch only
when the rejection message happens to contain that substring — and never
when the first probe produced a DNS-status-based result, so validation
failures are never masked by the fallback. -/
theorem C2_fallback_characterization (a t : String) (env : String → FetchOutcome)
    (ha : a ∈ validAlgorithms) (ht : t ∈ validTests) :
    (∀ d : DnsResponse, env (DNSSEC_TEST_DOMAINS a t) = .httpResponse true d →
        dnssecGET (some a) (some t) env
          = mkDnssecOk (DNSSEC_TEST_DOMAINS a t) a t (testDnssec (.httpResponse true d) t))
    ∧ (∀ d : DnsResponse, env (DNSSEC_TEST_DOMAINS a t) = .httpResponse false d →
        dnssecGET (some a) (some t) env
          = mkDnssecOk (ALT_TEST_DOMAINS a t) a t (testDnssec (env (ALT_TEST_DOMAINS a t)) t))
    ∧ (∀ msg : String, env (DNSSEC_TEST_DOMAINS a t) = .fetchError msg →
        dnssecGET (some a) (some t) env
          = if strContains msg "query failed" then
              mkDnssecOk (ALT_TEST_DOMAINS a t) a t (testDnssec (env (ALT_TEST_DOMAINS a t)) t)
            else
              mkDnssecOk (DNSSEC_TEST_DOMAINS a t) a t ⟨false, some msg⟩) := by
  refine ⟨?_, ?_, ?_⟩
  · intro d hd
    rw [dnssecGET_valid a t env ha ht, hd]
    simp [statusResult_no_fallback d t ht]
  · intro d hd
    rw [dnssecGET_valid a t env ha ht, hd]
    have h1 : testDnssec (.httpResponse false d) t = ⟨false, some "DNS query failed"⟩ := by
      simp [testDnssec]
    rw [h1]
    have hc : errIncludesQueryFailed ⟨false, some "DNS query failed"⟩ = true := by decide
    simp [hc]
  · intro msg hm
    rw [dnssecGET_valid a t env ha ht, hm]
    have h1 : testDnssec (.fetchError msg) t = ⟨false, some msg⟩ := by
      simp [testDnssec]
    rw [h1]
    have hc : errIncludesQueryFailed ⟨false, some msg⟩ = strContains msg "query failed" := rfl
    rw [hc]
    simp only [Bool.not_false, Bool.true_and]

/-- Witness for the amended C2: a concrete DNS-status-based run where the
primary result stands. -/
theorem C2_witness :
    ("ecdsa256" ∈ validAlgorithms ∧ "invalid" ∈ validTests)
      ∧ dnssecGET (some "ecdsa256") (some "invalid")
            (fun _ => .httpResponse true ⟨0, false⟩)
          = mkDnssecOk "bad.ecdsa256.dnssec.works" "ecdsa256" "invalid"
              ⟨false, some "Resolver accepted invalid signature"⟩ := by
  refine ⟨⟨by decide, by decide⟩, ?_⟩
  have h := (C2_fallback_characterization "ecdsa256" "invalid"
      (fun _ => .httpResponse true ⟨0, false⟩) (by decide) (by decide)).1 ⟨0, false⟩ rfl
  rw [h]
  decide

/-! ## Claim C10: missing or empty query parameters -/

theorem effInvalid_iff (o : Option String) (d : String) (vs : List String)
    (hd : d ∈ vs) : (jsOrD o d ∉ vs) ↔ presentInvalid o vs := by
  cases o with
  | none => simp [jsOrD, presentInvalid, hd]
  | some s =>
    by_cases hs : s = ""
    · subst hs
      simp [jsOrD, presentInvalid, hd]
    · simp [jsOrD, hs, presentInvalid]

/-- Claim C10: an absent `algorithm` or `test` parameter yields no 400:
the handler substitutes the defaults `ecdsa256` / `valid` and proceeds
with the probe (behaving exactly as if the default had been passed), and a
400 status arises exactly for a present, nonempty parameter value outside
the valid enum sets. -/
theorem C10_defaults_and_400 (a t : Option String) (env : String → FetchOutcome) :
    dnssecGET none t env = dnssecGET (some "ecdsa256") t env
    ∧ dnssecGET a none env = dnssecGET a (some "valid") env
    ∧ (dnssecGET none none env).status = 200
    ∧ ((dnssecGET a t env).status = 400 ↔
        (presentInvalid a validAlgorithms ∨ presentInvalid t validTests)) := by
  refine ⟨rfl, ?_, ?_, ?_⟩
  · have : jsOrD none "valid" = jsOrD (some "valid") "valid" := by decide
    simp only [dnssecGET, this]
  · simp only [dnssecGET]
    norm_num [jsOrD, validAlgorithms, validTests]
    split <;> rfl
  · have key : (dnssecGET a t env).status = 400 ↔
        (jsOrD a "ecdsa256" ∉ validAlgorithms ∨ jsOrD t "valid" ∉ validTests) := by
      simp only [dnssecGET]
      by_cases hA : jsOrD a "ecdsa256" ∉ validAlgorithms
      · simp [hA]
      · by_cases hT : jsOrD t "valid" ∉ validTests
        · simp [hA, hT]
        · simp only [hA, hT, if_false]
          split <;> simp [mkDnssecOk, hA, hT]
    rw [key, effInvalid_iff a "ecdsa256" validAlgorithms (by decide),
      effInvalid_iff t "valid" validTests (by decide)]

/-! ## Split / join lemmas -/

theorem splitOnChar_not_mem (a : Char) (l : List Char) (h : a ∉ l) :
    splitOnChar a l = [l] := by
  induction l with
  | nil => rfl
  | cons c cs ih =>
    simp only [List.mem_cons, not_or] at h
    have hba : (c == a) = false := by
      rw [beq_eq_false_iff_ne]
      exact fun e => h.1 e.symm
    simp only [splitOnChar, hba, Bool.false_eq_true, if_false, ih h.2]

theorem splitOnChar_append (a : Char) (g rest : List Char) (h : a ∉ g) :
    splitOnChar a (g ++ a :: rest) = g :: splitOnChar a rest := by
  induction g with
  | nil => simp [splitOnChar]
  | cons c cs ih =>
    simp only [List.mem_cons, not_or] at h
    have hba : (c == a) = false := by
      rw [beq_eq_false_iff_ne]
      exact fun e => h.1 e.symm
    simp only [List.cons_append, splitOnChar, hba, Bool.false_eq_true, if_false,
      List.append_eq]
    rw [ih h.2]

theorem splitOnChar_joinSep (a : Char) (gs : List (List Char)) (hne : gs ≠ [])
    (h : ∀ g ∈ gs, a ∉ g) : splitOnChar a (joinSep [a] gs) = gs := by
  induction gs with
  | nil => exact absurd rfl hne
  | cons g rest ih =>
    cases rest with
    | nil => exact splitOnChar_not_mem a g (h g (by simp))
    | cons g2 rest2 =>
      have hj : joinSep [a] (g :: g2 :: rest2) = g ++ a :: joinSep [a] (g2 :: rest2) := by
        simp [joinSep]
      rw [hj, splitOnChar_append a g _ (h g (by simp)),
        ih (by simp) (fun g' hg' => h g' (List.mem_cons_of_mem g hg'))]

theorem splitTwo_no_occ (a b : Char) (l : List Char) (h : hasOcc2 a b l = false) :
    splitTwo a b l = [l] := by
  induction l with
  | nil => rfl
  | cons c cs ih =>
    cases cs with
    | nil => rfl
    | cons d rest =>
      simp only [hasOcc2, Bool.or_eq_false_iff] at h
      simp only [splitTwo, h.1, Bool.false_eq_true, if_false, ih h.2]

theorem splitTwo_append_occ (a b : Char) (xs ys : List Char)
    (h : hasOcc2 a b (xs ++ [a]) = false) :
    splitTwo a b (xs ++ a :: b :: ys) = xs :: splitTwo a b ys := by
  induction xs with
  | nil => simp [splitTwo]
  | cons c cs ih =>
    cases cs with
    | nil =>
      simp only [List.cons_append, List.nil_append, hasOcc2, Bool.or_eq_false_iff] at h
      simp only [List.cons_append, List.nil_append, splitTwo, h.1, Bool.false_eq_true,
        if_false, beq_self_eq_true, Bool.and_self, if_true]
    | cons c2 cs2 =>
      simp only [List.cons_append, hasOcc2, Bool.or_eq_false_iff] at h
      have ih2 := ih (by simp only [List.cons_append, hasOcc2, Bool.or_eq_false_iff]; exact h.2)
      simp only [List.cons_append] at ih2
      simp only [List.cons_append, splitTwo, h.1, Bool.false_eq_true, if_false,
        List.append_eq]
      rw [ih2]

theorem hasOcc2_append_left (a b : Char) (g t : List Char) (hg : a ∉ g) :
    hasOcc2 a b (g ++ t) = hasOcc2 a b t := by
  induction g with
  | nil => rfl
  | cons c cs ih =>
    simp only [List.mem_cons, not_or] at hg
    have hca : (c == a) = false := by
      rw [beq_eq_false_iff_ne]
      exact fun e => hg.1 e.symm
    cases cs with
    | nil =>
      cases t with
      | nil => rfl
      | cons d rest =>
        simp only [List.cons_append, List.nil_append, hasOcc2, hca, Bool.false_and,
          Bool.false_or]
    | cons c2 cs2 =>
      have ih2 := ih hg.2
      simp only [List.cons_append] at ih2 ⊢
      simp only [hasOcc2, hca, Bool.false_and, Bool.false_or, ih2]

theorem joinSep_cons_ex (sep : List Char) (x : Char) (g' : List Char)
    (gs : List (List Char)) : ∃ u, joinSep sep ((x :: g') :: gs) = x :: u := by
  cases gs with
  | nil => exact ⟨g', rfl⟩
  | cons a2 b2 => exact ⟨g' ++ sep ++ joinSep sep (a2 :: b2), by simp [joinSep]⟩

theorem joinSep_ne_nil (sep : List Char) (gs : List (List Char)) (h : gs ≠ [])
    (hg : ∀ g ∈ gs, g ≠ []) : joinSep sep gs ≠ [] := by
  cases gs with
  | nil => exact absurd rfl h
  | cons g rest =>
    obtain ⟨x, xs, rfl⟩ : ∃ x xs, g = x :: xs := by
      cases g with
      | nil => exact absurd rfl (hg [] (by simp))
      | cons x xs => exact ⟨x, xs, rfl⟩
    obtain ⟨u, hu⟩ := joinSep_cons_ex sep x xs rest
    rw [hu]
    simp

theorem hasOcc2_joinSep (gs : List (List Char)) (t : List Char) (hne : gs ≠ [])
    (h : ∀ g ∈ gs, g ≠ [] ∧ ':' ∉ g) (ht : hasOcc2 ':' ':' t = false) :
    hasOcc2 ':' ':' (joinSep [':'] gs ++ t) = false := by
  induction gs with
  | nil => exact absurd rfl hne
  | cons g rest ih =>
    cases rest with
    | nil =>
      rw [show joinSep [':'] [g] = g from rfl, hasOcc2_append_left ':' ':' g t (h g (by simp)).2]
      exact ht
    | cons g2 rest2 =>
      have hj : joinSep [':'] (g :: g2 :: rest2) ++ t
          = g ++ (':' :: (joinSep [':'] (g2 :: rest2) ++ t)) := by
        simp [joinSep]
      rw [hj, hasOcc2_append_left ':' ':' g _ (h g (by simp)).2]
      obtain ⟨y, g2', rfl⟩ : ∃ y g2', g2 = y :: g2' := by
        cases g2 with
        | nil => exact absurd rfl (h [] (by simp)).1
        | cons y g2' => exact ⟨y, g2', rfl⟩
      obtain ⟨u, hu⟩ := joinSep_cons_ex [':'] y g2' rest2
      have hy : (y == ':') = false := by
        rw [beq_eq_false_iff_ne]
        exact fun e => (h (y :: g2') (by simp)).2 (e ▸ List.mem_cons_self y g2')
      rw [hu]
      simp only [List.cons_append, hasOcc2, hy, Bool.and_false, Bool.false_or]
      have ih2 := ih (by simp) (fun g' hg' => h g' (List.mem_cons_of_mem g hg')) 
      rw [hu] at ih2
      simp only [List.cons_append] at ih2
      exact ih2

theorem pad4_length (g : List Char) (h : g.length ≤ 4) : (pad4 g).length = 4 := by
  simp only [pad4, List.length_append, List.length_replicate]
  omega

theorem pad4_not_colon (g : List Char) (h : ':' ∉ g) : ':' ∉ pad4 g := by
  intro hc
  rcases List.mem_append.mp hc with h1 | h2
  · have := List.eq_of_mem_replicate h1
    exact absurd this (by decide)
  · exact h h2

theorem filter_ne_joinSep (gs : List (List Char)) (h : ∀ g ∈ gs, ':' ∉ g) :
    (joinSep [':'] gs).filter (fun c => c != ':') = gs.flatten := by
  induction gs with
  | nil => rfl
  | cons g rest ih =>
    have hg : g.filter (fun c => c != ':') = g := by
      rw [List.filter_eq_self]
      intro c hc
      simp only [bne_iff_ne, ne_eq, decide_eq_true_eq]
      exact fun e => h g (by simp) (e ▸ hc)
    cases rest with
    | nil =>
      show g.filter (fun c => c != ':') = g ++ []
      rw [hg, List.append_nil]
    | cons g2 rest2 =>
      have hj : joinSep [':'] (g :: g2 :: rest2) = g ++ ':' :: joinSep [':'] (g2 :: rest2) := by
        simp [joinSep]
      rw [hj, List.filter_append]
      have : List.filter (fun c => c != ':') (':' :: joinSep [':'] (g2 :: rest2))
          = List.filter (fun c => c != ':') (joinSep [':'] (g2 :: rest2)) := by
        simp [List.filter_cons]
      rw [this, hg, ih (fun g' hg' => h g' (List.mem_cons_of_mem g hg'))]
      rfl

theorem join_length_four (gs : List (List Char)) (h : ∀ g ∈ gs, g.length = 4) :
    gs.flatten.length = 4 * gs.length := by
  induction gs with
  | nil => rfl
  | cons g rest ih =>
    simp only [List.flatten_cons, List.length_append, List.length_cons,
      h g (by simp), ih (fun g' hg' => h g' (List.mem_cons_of_mem g hg'))]
    ring

/-- Core characterization of `expandIPv6` on inputs with one `::` and
well-formed groups on each side. -/
theorem expandIPv6Core_eq (L R : List (List Char)) (hL : L ≠ []) (hR : R ≠ [])
    (hg : ∀ g ∈ L ++ R, g ≠ [] ∧ ':' ∉ g) :
    expandIPv6Core (joinSep [':'] L ++ ':' :: ':' :: joinSep [':'] R)
      = joinSep [':'] (List.map pad4 (L
          ++ List.replicate (8 - L.length - R.length) zeroGroup ++ R)) := by
  have hgL : ∀ g ∈ L, g ≠ [] ∧ ':' ∉ g := fun g hgm => hg g (List.mem_append_left R hgm)
  have hgR : ∀ g ∈ R, g ≠ [] ∧ ':' ∉ g := fun g hgm => hg g (List.mem_append_right L hgm)
  have hoccL : hasOcc2 ':' ':' (joinSep [':'] L ++ [':']) = false :=
    hasOcc2_joinSep L [':'] hL hgL rfl
  have hoccR : hasOcc2 ':' ':' (joinSep [':'] R) = false := by
    have := hasOcc2_joinSep R [] hR hgR rfl
    rwa [List.append_nil] at this
  have hsplit : splitTwo ':' ':' (joinSep [':'] L ++ ':' :: ':' :: joinSep [':'] R)
      = [joinSep [':'] L, joinSep [':'] R] := by
    rw [splitTwo_append_occ ':' ':' _ _ hoccL, splitTwo_no_occ ':' ':' _ hoccR]
  have hLne : joinSep [':'] L ≠ [] := joinSep_ne_nil [':'] L hL (fun g hgm => (hgL g hgm).1)
  have hRne : joinSep [':'] R ≠ [] := joinSep_ne_nil [':'] R hR (fun g hgm => (hgR g hgm).1)
  simp only [expandIPv6Core, hsplit, if_neg hLne, if_neg hRne,
    splitOnChar_joinSep ':' L hL (fun g hgm => (hgL g hgm).2),
    splitOnChar_joinSep ':' R hR (fun g hgm => (hgR g hgm).2)]

/-! ## Claim C4: IPv6 expansion -/

/-- Claim C4: for every IPv6 address containing one `::` marker with
well-formed hex groups on each side (written here as the nonempty group
lists `L` and `R`), `expandIPv6` splits on `::`, inserts
`8 - left_groups - right_groups` groups of `"0000"` in the middle, and
left-pads every group to 4 digits; the output is the canonical form with
exactly 8 groups of 4 characters. -/
theorem C4_expandIPv6_canonical (L R : List (List Char)) (hL : L ≠ []) (hR : R ≠ [])
    (hg : ∀ g ∈ L ++ R, g ≠ [] ∧ ':' ∉ g ∧ g.length ≤ 4)
    (hlen : L.length + R.length ≤ 8) :
    expandIPv6 ((joinSep [':'] L ++ ':' :: ':' :: joinSep [':'] R).asString)
        = (joinSep [':'] (List.map pad4 L
            ++ List.replicate (8 - L.length - R.length) zeroGroup
            ++ List.map pad4 R)).asString
      ∧ (splitOnChar ':' (expandIPv6Core
          (joinSep [':'] L ++ ':' :: ':' :: joinSep [':'] R))).length = 8
      ∧ ∀ g ∈ splitOnChar ':' (expandIPv6Core
          (joinSep [':'] L ++ ':' :: ':' :: joinSep [':'] R)), g.length = 4 := by
  have hg2 : ∀ g ∈ L ++ R, g ≠ [] ∧ ':' ∉ g := fun g hm => ⟨(hg g hm).1, (hg g hm).2.1⟩
  have hcore := expandIPv6Core_eq L R hL hR hg2
  have hmap : List.map pad4 (L ++ List.replicate (8 - L.length - R.length) zeroGroup ++ R)
      = List.map pad4 L ++ List.replicate (8 - L.length - R.length) zeroGroup
        ++ List.map pad4 R := by
    simp only [List.map_append, List.map_replicate]
    rw [show pad4 zeroGroup = zeroGroup from rfl]
  have hcols : ∀ g ∈ List.map pad4 L ++ List.replicate (8 - L.length - R.length) zeroGroup
      ++ List.map pad4 R, ':' ∉ g := by
    intro g hm
    rcases List.mem_append.mp hm with hm1 | hm2
    · rcases List.mem_append.mp hm1 with hm1a | hm1b
      · obtain ⟨g', hg', rfl⟩ := List.mem_map.mp hm1a
        exact pad4_not_colon g' (hg g' (List.mem_append_left R hg')).2.1
      · rw [List.eq_of_mem_replicate hm1b]
        decide
    · obtain ⟨g', hg', rfl⟩ := List.mem_map.mp hm2
      exact pad4_not_colon g' (hg g' (List.mem_append_right L hg')).2.1
  have hne : List.map pad4 L ++ List.replicate (8 - L.length - R.length) zeroGroup
      ++ List.map pad4 R ≠ [] := by
    cases L with
    | nil => exact absurd rfl hL
    | cons x xs => simp
  have hsplit2 : splitOnChar ':' (expandIPv6Core
        (joinSep [':'] L ++ ':' :: ':' :: joinSep [':'] R))
      = List.map pad4 L ++ List.replicate (8 - L.length - R.length) zeroGroup
        ++ List.map pad4 R := by
    rw [hcore, hmap]
    exact splitOnChar_joinSep ':' _ hne hcols
  refine ⟨?_, ?_, ?_⟩
  · show (expandIPv6Core
        ((joinSep [':'] L ++ ':' :: ':' :: joinSep [':'] R).asString).toList).asString = _
    rw [show ((joinSep [':'] L ++ ':' :: ':' :: joinSep [':'] R).asString).toList
        = joinSep [':'] L ++ ':' :: ':' :: joinSep [':'] R from rfl]
    rw [hcore, hmap]
  · rw [hsplit2]
    simp only [List.length_append, List.length_map, List.length_replicate]
    omega
  · rw [hsplit2]
    intro g hm
    rcases List.mem_append.mp hm with hm1 | hm2
    · rcases List.mem_append.mp hm1 with hm1a | hm1b
      · obtain ⟨g', hg', rfl⟩ := List.mem_map.mp hm1a
        exact pad4_length g' (hg g' (List.mem_append_left R hg')).2.2
      · rw [List.eq_of_mem_replicate hm1b]
        rfl
    · obtain ⟨g', hg', rfl⟩ := List.mem_map.mp hm2
      exact pad4_length g' (hg g' (List.mem_append_right L hg')).2.2

/-- Witness for C4: the spec's concrete example. -/
theorem C4_witness :
    expandIPv6 "2001:db8::1" = "2001:0db8:0000:0000:0000:0000:0000:0001" := by
  have h := (C4_expandIPv6_canonical [['2', '0', '0', '1'], ['d', 'b', '8']] [['1']]
      (by decide) (by decide) (by decide) (by decide)).1
  rw [show (joinSep [':'] [['2', '0', '0', '1'], ['d', 'b', '8']]
      ++ ':' :: ':' :: joinSep [':'] [['1']]).asString = "2001:db8::1" from by decide] at h
  rw [h]
  decide

/-! ## Claim C5: PTR name construction -/

/-- Claim C5: for an IPv4 dotted quad the PTR name is the four octets
reversed joined with dots plus `.in-addr.arpa`; for an IPv6 address with
one `::` marker and well-formed groups, it is the expansion's 32 nibbles
(colons stripped) reversed, joined with dots, plus `.ip6.arpa`. -/
theorem C5_buildPtrName_characterization :
    (∀ a b c d : List Char,
        (∀ g ∈ [a, b, c, d], '.' ∉ g ∧ ':' ∉ g) →
        buildPtrName ((a ++ '.' :: b ++ '.' :: c ++ '.' :: d).asString)
          = (d ++ '.' :: c ++ '.' :: b ++ '.' :: a ++ ".in-addr.arpa".toList).asString)
    ∧ (∀ L R : List (List Char), L ≠ [] → R ≠ [] →
        (∀ g ∈ L ++ R, g ≠ [] ∧ ':' ∉ g ∧ g.length ≤ 4) →
        L.length + R.length ≤ 8 →
        buildPtrName ((joinSep [':'] L ++ ':' :: ':' :: joinSep [':'] R).asString)
            = (joinSep ['.'] (List.map (fun ch => [ch])
                  (((List.map pad4 L
                      ++ List.replicate (8 - L.length - R.length) zeroGroup
                      ++ List.map pad4 R).flatten).reverse))
                ++ ".ip6.arpa".toList).asString
          ∧ ((List.map pad4 L ++ List.replicate (8 - L.length - R.length) zeroGroup
              ++ List.map pad4 R).flatten).length = 32) := by
  constructor
  · intro a b c d h
    have ha := h a (by simp)
    have hb := h b (by simp)
    have hc := h c (by simp)
    have hd := h d (by simp)
    have hshape : a ++ '.' :: b ++ '.' :: c ++ '.' :: d
        = a ++ '.' :: (b ++ '.' :: (c ++ '.' :: d)) := by
      simp [List.append_assoc]
    have hnc : ':' ∉ a ++ '.' :: (b ++ '.' :: (c ++ '.' :: d)) := by
      intro hm
      simp only [List.mem_append, List.mem_cons] at hm
      rcases hm with h1 | h1 | h1 | h1 | h1 | h1 | h1
      exacts [ha.2 h1, absurd h1 (by decide), hb.2 h1, absurd h1 (by decide),
        hc.2 h1, absurd h1 (by decide), hd.2 h1]
    have hsp : splitOnChar '.' (a ++ '.' :: (b ++ '.' :: (c ++ '.' :: d)))
        = [a, b, c, d] := by
      rw [splitOnChar_append '.' a _ ha.1, splitOnChar_append '.' b _ hb.1,
        splitOnChar_append '.' c _ hc.1, splitOnChar_not_mem '.' d hd.1]
    show (buildPtrNameCore
        ((a ++ '.' :: b ++ '.' :: c ++ '.' :: d).asString).toList).asString = _
    rw [show ((a ++ '.' :: b ++ '.' :: c ++ '.' :: d).asString).toList
        = a ++ '.' :: b ++ '.' :: c ++ '.' :: d from rfl, hshape]
    simp only [buildPtrNameCore, if_neg hnc, hsp]
    apply congrArg
    simp [joinSep, List.append_assoc]
  · intro L R hL hR hg hlen
    have hg2 : ∀ g ∈ L ++ R, g ≠ [] ∧ ':' ∉ g := fun g hm => ⟨(hg g hm).1, (hg g hm).2.1⟩
    have hcore := expandIPv6Core_eq L R hL hR hg2
    have hmap : List.map pad4 (L ++ List.replicate (8 - L.length - R.length) zeroGroup ++ R)
        = List.map pad4 L ++ List.replicate (8 - L.length - R.length) zeroGroup
          ++ List.map pad4 R := by
      simp only [List.map_append, List.map_replicate]
      rw [show pad4 zeroGroup = zeroGroup from rfl]
    have hcols : ∀ g ∈ List.map pad4 L ++ List.replicate (8 - L.length - R.length) zeroGroup
        ++ List.map pad4 R, ':' ∉ g := by
      intro g hm
      rcases List.mem_append.mp hm with hm1 | hm2
      · rcases List.mem_append.mp hm1 with hm1a | hm1b
        · obtain ⟨g', hg', rfl⟩ := List.mem_map.mp hm1a
          exact pad4_not_colon g' (hg g' (List.mem_append_left R hg')).2.1
        · rw [List.eq_of_mem_replicate hm1b]
          decide
      · obtain ⟨g', hg', rfl⟩ := List.mem_map.mp hm2
        exact pad4_not_colon g' (hg g' (List.mem_append_right L hg')).2.1
    have hlens : ∀ g ∈ List.map pad4 L ++ List.replicate (8 - L.length - R.length) zeroGroup
        ++ List.map pad4 R, g.length = 4 := by
      intro g hm
      rcases List.mem_append.mp hm with hm1 | hm2
      · rcases List.mem_append.mp hm1 with hm1a | hm1b
        · obtain ⟨g', hg', rfl⟩ := List.mem_map.mp hm1a
          exact pad4_length g' (hg g' (List.mem_append_left R hg')).2.2
        · rw [List.eq_of_mem_replicate hm1b]
          rfl
      · obtain ⟨g', hg', rfl⟩ := List.mem_map.mp hm2
        exact pad4_length g' (hg g' (List.mem_append_right L hg')).2.2
    have hcol : ':' ∈ joinSep [':'] L ++ ':' :: ':' :: joinSep [':'] R :=
      List.mem_append.mpr (Or.inr (by simp))
    constructor
    · show (buildPtrNameCore
          ((joinSep [':'] L ++ ':' :: ':' :: joinSep [':'] R).asString).toList).asString = _
      rw [show ((joinSep [':'] L ++ ':' :: ':' :: joinSep [':'] R).asString).toList
          = joinSep [':'] L ++ ':' :: ':' :: joinSep [':'] R from rfl]
      simp only [buildPtrNameCore, if_pos hcol]
      rw [hcore, hmap, filter_ne_joinSep _ hcols]
    · rw [join_length_four _ hlens]
      have h8 : (List.map pad4 L ++ List.replicate (8 - L.length - R.length) zeroGroup
          ++ List.map pad4 R).length = 8 := by
        simp only [List.length_append, List.length_map, List.length_replicate]
        omega
      rw [h8]

/-- Witness for C5: the spec's concrete IPv4 example. -/
theorem C5_witness :
    buildPtrName "8.8.8.8" = "8.8.8.8.in-addr.arpa" := by
  have h := C5_buildPtrName_characterization.1 ['8'] ['8'] ['8'] ['8'] (by decide)
  rw [show ((['8'] ++ '.' :: ['8'] ++ '.' :: ['8'] ++ '.' :: ['8']).asString)
      = "8.8.8.8" from by decide] at h
  rw [h]
  decide

/-! ## Claims C7, C8, C9: IP detection endpoint -/

/-- Claim C7 is refuted by this closed computation: the cf-connecting-ip
header is PRESENT (with an empty value, as `Headers.get` returns for a
present-but-empty header), yet the client IP is taken from
x-forwarded-for, not from cf-connecting-ip, in both handler variants:
the empty string is falsy under JS `||`. -/
theorem C7_counterexample :
    extractClientIp (some "") (some "1.2.3.4") (some "5.6.7.8") = some "1.2.3.4"
    ∧ extractClientIpWithRemote (some "") (some "1.2.3.4") (some "5.6.7.8") "9.9.9.9"
        = "1.2.3.4"
    ∧ ("1.2.3.4" : String) ≠ "" := by
  refine ⟨by decide, by decide, by decide⟩

/-- Claim C7 (amended): when the cf-connecting-ip header is present with a
NONEMPTY value, it determines the client IP, taking precedence over
x-forwarded-for and x-real-ip (and the connection address in the variant
handler), even when all of them are set. -/
theorem C7_cf_precedence (s : String) (xff realIp : Option String) (remote : String)
    (hs : s ≠ "") :
    extractClientIp (some s) xff realIp = some s
    ∧ extractClientIpWithRemote (some s) xff realIp remote = s := by
  constructor <;> simp [extractClientIp, extractClientIpWithRemote, jsOr, jsOrD, hs]

/-- Witness for the amended C7 with all three headers set. -/
theorem C7_witness :
    (("203.0.113.7" : String) ≠ "")
    ∧ extractClientIp (some "203.0.113.7") (some "1.2.3.4") (some "5.6.7.8")
        = some "203.0.113.7" :=
  ⟨by decide,
    (C7_cf_precedence "203.0.113.7" (some "1.2.3.4") (some "5.6.7.8") "9.9.9.9"
      (by decide)).1⟩

/-- Claim C8: when the `version` parameter requests a family that does not
match the detected (header-derived, non-loopback) address family and the
re-queried family-specific echo service cannot supply an address of that
family (fetch rejected, missing field, or wrong family), the endpoint
returns HTTP 200 with success=false and the corresponding
"No IPv{4,6} connectivity" error, not an error status code. -/
theorem C8_no_connectivity (c : String) (xff realIp echo4 echo6 : Option String)
    (infoSvc : Svc IpInfoResponse) (apiSvc : Svc IpApiResponse)
    (dohSvc : Svc DohResponse) :
    (c ≠ "" → c ≠ "127.0.0.1" → c ≠ "::1" → ':' ∉ c.toList →
      (∀ s, echo6 = some s → s = "" ∨ ':' ∉ s.toList) →
      ipGET (some "6") (some c) xff realIp echo4 echo6 infoSvc apiSvc dohSvc
        = ipErrorResponse 200 "No IPv6 connectivity")
    ∧ (c ≠ "" → c ≠ "127.0.0.1" → c ≠ "::1" → ':' ∈ c.toList →
      (∀ s, echo4 = some s → s = "" ∨ ':' ∈ s.toList) →
      ipGET (some "4") (some c) xff realIp echo4 echo6 infoSvc apiSvc dohSvc
        = ipErrorResponse 200 "No IPv4 connectivity") := by
  constructor
  · intro h1 h2 h3 h4 h5
    have h4' : ':' ∉ c.data := h4
    have hext : extractClientIp (some c) xff realIp = some c := by
      simp [extractClientIp, jsOr, h1]
    cases echo6 with
    | none => simp [ipGET, hext, h1, h2, h3, h4, h4']
    | some s =>
      rcases h5 s rfl with hs | hs
      · subst hs
        simp [ipGET, hext, h1, h2, h3, h4, h4']
      · have hs' : ':' ∉ s.data := hs
        simp [ipGET, hext, h1, h2, h3, h4, h4', hs, hs']
  · intro h1 h2 h3 h4 h5
    have h4' : ':' ∈ c.data := h4
    have hext : extractClientIp (some c) xff realIp = some c := by
      simp [extractClientIp, jsOr, h1]
    cases echo4 with
    | none => simp [ipGET, hext, h1, h2, h3, h4, h4']
    | some s =>
      rcases h5 s rfl with hs | hs
      · subst hs
        simp [ipGET, hext, h1, h2, h3, h4, h4']
      · have hs' : ':' ∈ s.data := hs
        simp [ipGET, hext, h1, h2, h3, h4, h4', hs, hs']

/-- Witness for C8: an IPv4-only client asking for version=6, and an
IPv6 client asking for version=4, both against echo services answering the
wrong family. -/
theorem C8_witness :
    ipGET (some "6") (some "203.0.113.7") none none (some "203.0.113.7")
        (some "203.0.113.7") (fun _ => none) (fun _ => none) (fun _ => none)
      = ipErrorResponse 200 "No IPv6 connectivity"
    ∧ ipGET (some "4") (some "2001:db8::2") none none (some "2001:db8::2")
        (some "2001:db8::2") (fun _ => none) (fun _ => none) (fun _ => none)
      = ipErrorResponse 200 "No IPv4 connectivity" := by
  constructor
  · exact (C8_no_connectivity "203.0.113.7" none none (some "203.0.113.7")
      (some "203.0.113.7") (fun _ => none) (fun _ => none) (fun _ => none)).1
      (by decide) (by decide) (by decide) (by decide)
      (fun s hs => by injection hs with h; subst h; right; decide)
  · exact (C8_no_connectivity "2001:db8::2" none none (some "2001:db8::2")
      (some "2001:db8::2") (fun _ => none) (fun _ => none) (fun _ => none)).2
      (by decide) (by decide) (by decide) (by decide)
      (fun s hs => by injection hs with h; subst h; right; decide)

/-- Claim C9: the geolocation and PTR lookups are deterministic given
fixed upstream data: their results depend only on the queried address and
on the upstream responses for the URLs derived from that address, so two
calls for the same address against upstreams that agree on those URLs
return structurally identical records. -/
theorem C9_lookup_determinism :
    (∀ (ip : String) (f1 f2 : Svc IpInfoResponse) (g1 g2 : Svc IpApiResponse),
      f1 (ipinfoUrl ip) = f2 (ipinfoUrl ip) →
      g1 (ipApiUrl ip) = g2 (ipApiUrl ip) →
      getIpInfo ip f1 g1 = getIpInfo ip f2 g2)
    ∧ (∀ (ip : String) (d1 d2 : Svc DohResponse),
      d1 (dohPtrUrl ((buildPtrNameCore ip.toList).asString))
        = d2 (dohPtrUrl ((buildPtrNameCore ip.toList).asString)) →
      getPtrRecord ip d1 = getPtrRecord ip d2) := by
  constructor
  · intro ip f1 f2 g1 g2 hf hg
    simp only [getIpInfo, hf, hg]
  · intro ip d1 d2 hd
    simp only [getPtrRecord, hd]

/-- Witness for C9: two upstream assignments that differ away from the
queried URLs but agree on them give identical records. -/
theorem C9_witness :
    getIpInfo "8.8.8.8"
        (fun u => if u = ipinfoUrl "8.8.8.8"
          then some (true,
            ⟨"8.8.8.8", some "dns.google", none, none, none, none, none, none, none⟩)
          else none)
        (fun _ => none)
      = getIpInfo "8.8.8.8"
        (fun _ => some (true,
          ⟨"8.8.8.8", some "dns.google", none, none, none, none, none, none, none⟩))
        (fun _ => none) :=
  C9_lookup_determinism.1 "8.8.8.8" _ _ _ _ (by decide) rfl

/-! ## Lemmas for the private-range claims -/

theorem splitTwo_ne_nil (a b : Char) (l : List Char) : splitTwo a b l ≠ [] := by
  cases l with
  | nil => simp [splitTwo]
  | cons c cs =>
    cases cs with
    | nil => simp [splitTwo]
    | cons d rest =>
      simp only [splitTwo]
      split
      · simp
      · split <;> simp

theorem splitTwo_cons_step (a b c d : Char) (rest : List Char) (g : List Char)
    (gs : List (List Char)) (hc : (c == a && d == b) = false)
    (hg : splitTwo a b (d :: rest) = g :: gs) :
    splitTwo a b (c :: d :: rest) = (c :: g) :: gs := by
  simp only [splitTwo, hc, Bool.false_eq_true, if_false, hg]

theorem splitTwo_colon_cons (r : List Char) :
    ∃ g gs, splitTwo ':' ':' (':' :: r) = g :: gs ∧ (g = [] ∨ ∃ u, g = ':' :: u) := by
  cases r with
  | nil => exact ⟨[':'], [], rfl, Or.inr ⟨[], rfl⟩⟩
  | cons x r' =>
    by_cases hx : x = ':'
    · subst hx
      exact ⟨[], splitTwo ':' ':' r', by simp [splitTwo], Or.inl rfl⟩
    · have hcond : ((':' == ':') && (x == ':')) = false := by
        simp [beq_eq_false_iff_ne.mpr hx]
      obtain ⟨g', gs', hg'⟩ : ∃ g' gs', splitTwo ':' ':' (x :: r') = g' :: gs' := by
        cases e : splitTwo ':' ':' (x :: r') with
        | nil => exact absurd e (splitTwo_ne_nil ':' ':' _)
        | cons a2 b2 => exact ⟨a2, b2, rfl⟩
      exact ⟨':' :: g', gs',
        by simp only [splitTwo, hcond, Bool.false_eq_true, if_false, hg'],
        Or.inr ⟨g', rfl⟩⟩

theorem joinSep_pad_head (ds : List Char) (tail : List (List Char)) (h4 : pad4 ds = ds)
    (hne : tail ≠ []) :
    joinSep [':'] (List.map pad4 (ds :: tail))
      = ds ++ ':' :: joinSep [':'] (List.map pad4 tail) := by
  cases tail with
  | nil => exact absurd rfl hne
  | cons x xs =>
    simp only [List.map_cons, h4]
    show joinSep [':'] (ds :: pad4 x :: List.map pad4 xs) = _
    simp [joinSep]

theorem expand_tail_ex (ls rs : List (List Char)) (ds : List Char) (h4 : pad4 ds = ds) :
    ∃ t, joinSep [':'] (List.map pad4 ((ds :: ls)
        ++ List.replicate (8 - (ds :: ls).length - rs.length) zeroGroup ++ rs))
      = ds ++ ':' :: t := by
  have hne : ls ++ List.replicate (8 - (ds :: ls).length - rs.length) zeroGroup ++ rs ≠ [] := by
    intro he
    have hlen := congrArg List.length he
    simp only [List.length_append, List.length_replicate, List.length_nil,
      List.length_cons] at hlen
    omega
  refine ⟨joinSep [':'] (List.map pad4 (ls
      ++ List.replicate (8 - (ds :: ls).length - rs.length) zeroGroup ++ rs)), ?_⟩
  rw [show (ds :: ls) ++ List.replicate (8 - (ds :: ls).length - rs.length) zeroGroup ++ rs
      = ds :: (ls ++ List.replicate (8 - (ds :: ls).length - rs.length) zeroGroup ++ rs)
    from by simp]
  exact joinSep_pad_head ds _ h4 hne

theorem expandIPv6Core_head (d0 d1 d2 d3 : Char) (r : List Char)
    (h0 : d0 ≠ ':') (h1 : d1 ≠ ':') (h2 : d2 ≠ ':') (h3 : d3 ≠ ':') :
    ∃ t, expandIPv6Core (d0 :: d1 :: d2 :: d3 :: ':' :: r)
      = d0 :: d1 :: d2 :: d3 :: ':' :: t := by
  have hb0 : (d0 == ':') = false := beq_eq_false_iff_ne.mpr h0
  have hb1 : (d1 == ':') = false := beq_eq_false_iff_ne.mpr h1
  have hb2 : (d2 == ':') = false := beq_eq_false_iff_ne.mpr h2
  have hb3 : (d3 == ':') = false := beq_eq_false_iff_ne.mpr h3
  obtain ⟨g, gs, hsp, hshape⟩ := splitTwo_colon_cons r
  have e3 := splitTwo_cons_step ':' ':' d3 ':' r g gs (by simp [hb3]) hsp
  have e2 := splitTwo_cons_step ':' ':' d2 d3 (':' :: r) (d3 :: g) gs (by simp [hb2]) e3
  have e1 := splitTwo_cons_step ':' ':' d1 d2 (d3 :: ':' :: r) (d2 :: d3 :: g) gs
    (by simp [hb1]) e2
  have e0 := splitTwo_cons_step ':' ':' d0 d1 (d2 :: d3 :: ':' :: r) (d1 :: d2 :: d3 :: g) gs
    (by simp [hb0]) e1
  have hnc : ':' ∉ [d0, d1, d2, d3] := by
    intro hm
    simp only [List.mem_cons, List.not_mem_nil, or_false] at hm
    rcases hm with e | e | e | e
    exacts [h0 e.symm, h1 e.symm, h2 e.symm, h3 e.symm]
  obtain ⟨ls, hleft⟩ : ∃ ls, splitOnChar ':' (d0 :: d1 :: d2 :: d3 :: g)
      = [d0, d1, d2, d3] :: ls := by
    rcases hshape with rfl | ⟨u, rfl⟩
    · exact ⟨[], splitOnChar_not_mem ':' [d0, d1, d2, d3] hnc⟩
    · exact ⟨splitOnChar ':' u, splitOnChar_append ':' [d0, d1, d2, d3] u hnc⟩
  have hconsne : (d0 :: d1 :: d2 :: d3 :: g) ≠ [] := by simp
  simp only [expandIPv6Core, e0, hleft, if_neg hconsne]
  exact expand_tail_ex ls _ [d0, d1, d2, d3] rfl

theorem hex_lower_mem (c : Char) (hc : isHexDigit c = true) : toLowerAscii c ∈ hexChars := by
  have hm : c ∈ hexDigitsBoth := of_decide_eq_true hc
  fin_cases hm <;> decide

theorem hex_ne_colon (c : Char) (hc : c ∈ hexChars) : c ≠ ':' := by
  fin_cases hc <;> decide

theorem hexDigitVal_le (c : Char) (hc : c ∈ hexChars) : hexDigitVal c ≤ 15 := by
  fin_cases hc <;> decide

theorem hexChar_f_iff (c : Char) (hc : c ∈ hexChars) : c = 'f' ↔ hexDigitVal c = 15 := by
  fin_cases hc <;> decide

theorem hexChar_e_iff (c : Char) (hc : c ∈ hexChars) : c = 'e' ↔ hexDigitVal c = 14 := by
  fin_cases hc <;> decide

theorem hexChar_89ab_iff (c : Char) (hc : c ∈ hexChars) :
    (c = '8' ∨ c = '9' ∨ c = 'a' ∨ c = 'b')
      ↔ (8 ≤ hexDigitVal c ∧ hexDigitVal c ≤ 11) := by
  fin_cases hc <;> decide

theorem hexChar_cd_iff (c : Char) (hc : c ∈ hexChars) :
    (c = 'c' ∨ c = 'd') ↔ (12 ≤ hexDigitVal c ∧ hexDigitVal c ≤ 13) := by
  fin_cases hc <;> decide

theorem digitChar10_toNat (p : Nat) (h : p < 10) : (digitChar10 p).toNat = 48 + p := by
  interval_cases p <;> rfl

theorem natDigits_foldl (p : Nat) :
    (natDigits p).foldl (fun a c => 10 * a + (c.toNat - 48)) 0 = p := by
  induction p using Nat.strong_induction_on with
  | _ p ih =>
    rw [natDigits]
    split
    · next h =>
      simp only [List.foldl_cons, List.foldl_nil]
      rw [digitChar10_toNat p h]
      omega
    · next h =>
      rw [List.foldl_append]
      simp only [List.foldl_cons, List.foldl_nil]
      rw [ih (p / 10) (Nat.div_lt_self (by omega) (by omega)),
        digitChar10_toNat (p % 10) (Nat.mod_lt p (by omega))]
      omega

theorem natDigits_all_digits (p : Nat) : (natDigits p).all isDigitCh = true := by
  rw [List.all_eq_true]
  intro c hc
  have hm := natDigits_subset p c hc
  fin_cases hm <;> decide

theorem jsNumber_natDigits (p : Nat) : jsNumber (natDigits p) = some p := by
  simp only [jsNumber, natDigits_all_digits, if_true, natDigits_foldl]

theorem natDigits_no_dot (p : Nat) : '.' ∉ natDigits p := by
  intro hm
  have hd := natDigits_subset p '.' hm
  revert hd
  decide

set_option maxHeartbeats 1600000 in
theorem isPriv6_value_iff (d0 d1 d2 d3 : Char)
    (hd0 : d0 ∈ hexChars) (hd1 : d1 ∈ hexChars) (hd2 : d2 ∈ hexChars)
    (hd3 : d3 ∈ hexChars) :
    ((d0 == 'f' && d1 == 'e'
        && (d2 == '8' || d2 == '9' || d2 == 'a' || d2 == 'b'))
      || (d0 == 'f' && (d1 == 'c' || d1 == 'd')))
    = (decide (0xfe80 ≤ hexVal [d0, d1, d2, d3] ∧ hexVal [d0, d1, d2, d3] ≤ 0xfebf)
       || decide (0xfc00 ≤ hexVal [d0, d1, d2, d3] ∧ hexVal [d0, d1, d2, d3] ≤ 0xfdff)) := by
  have hV : hexVal [d0, d1, d2, d3]
      = 4096 * hexDigitVal d0 + 256 * hexDigitVal d1 + 16 * hexDigitVal d2
        + hexDigitVal d3 := by
    simp [hexVal]
    ring
  have e0 := hexChar_f_iff d0 hd0
  have e1e := hexChar_e_iff d1 hd1
  have e2 := hexChar_89ab_iff d2 hd2
  have e1cd := hexChar_cd_iff d1 hd1
  have b0 := hexDigitVal_le d0 hd0
  have b1 := hexDigitVal_le d1 hd1
  have b2 := hexDigitVal_le d2 hd2
  have b3 := hexDigitVal_le d3 hd3
  rw [Bool.eq_iff_iff]
  simp only [Bool.or_eq_true, Bool.and_eq_true, beq_iff_eq, decide_eq_true_eq, hV]
  constructor
  · rintro (⟨⟨hf, he⟩, h89⟩ | ⟨hf, hcd⟩)
    · left
      have v0 : hexDigitVal d0 = 15 := e0.mp hf
      have v1 : hexDigitVal d1 = 14 := e1e.mp he
      have v2 : 8 ≤ hexDigitVal d2 ∧ hexDigitVal d2 ≤ 11 := e2.mp (by tauto)
      omega
    · right
      have v0 : hexDigitVal d0 = 15 := e0.mp hf
      have v1 : 12 ≤ hexDigitVal d1 ∧ hexDigitVal d1 ≤ 13 := e1cd.mp (by tauto)
      omega
  · rintro (⟨hlo, hhi⟩ | ⟨hlo, hhi⟩)
    · have v0 : hexDigitVal d0 = 15 := by omega
      have v1 : hexDigitVal d1 = 14 := by omega
      have v2 : 8 ≤ hexDigitVal d2 ∧ hexDigitVal d2 ≤ 11 := by omega
      left
      refine ⟨⟨e0.mpr v0, e1e.mpr v1⟩, ?_⟩
      have := e2.mpr v2
      tauto
    · have v0 : hexDigitVal d0 = 15 := by omega
      have v1 : 12 ≤ hexDigitVal d1 ∧ hexDigitVal d1 ≤ 13 := by omega
      right
      refine ⟨e0.mpr v0, ?_⟩
      have := e1cd.mpr v1
      tauto

/-! ## Claim C6: private-range classification -/

/-- Claim C6 is refuted by this closed computation: `"fe8::1"` is a
well-formed IPv6 address string denoting 0fe8:0000:0000:0000:0000:0000:
0000:0001, which lies in none of fe80::/10, fc00::/7 and is not the
loopback, yet `isPrivateIPv6` classifies it as private because the regex
`/^fe[89ab]/` inspects the textual prefix without normalising the group
to four digits. -/
theorem C6_counterexample :
    isPrivateIPv6 "fe8::1" = true
    ∧ inFe80 "fe8::1" = false
    ∧ inFc00 "fe8::1" = false
    ∧ isLoopback6 "fe8::1" = false
    ∧ ipv6Groups "fe8::1" = some [0x0fe8, 0, 0, 0, 0, 0, 0, 1] := by
  refine ⟨by decide, by decide, by decide, by decide, by decide⟩

/-- Claim C6 (amended): `isPrivateIPv4` classifies a dotted quad as
private exactly when it lies in 10.0.0.0/8, 172.16.0.0/12,
192.168.0.0/16, 100.64.0.0/10 or 169.254.0.0/16; and for every IPv6
address string whose first group is written with four hex digits (and
which denotes a well-formed address), `isPrivateIPv6` returns true iff
the address lies in fe80::/10 or fc00::/7; the loopback is recognised
only in its literal spelling `::1`. -/
theorem C6_private_ranges :
    (∀ p0 p1 p2 p3 : Nat, p0 ≤ 255 → p1 ≤ 255 → p2 ≤ 255 → p3 ≤ 255 →
      (isPrivateIPv4 ((joinSep ['.'] [natDigits p0, natDigits p1, natDigits p2,
            natDigits p3]).asString) = true
        ↔ (p0 = 10 ∨ (p0 = 172 ∧ 16 ≤ p1 ∧ p1 ≤ 31) ∨ (p0 = 192 ∧ p1 = 168)
            ∨ (p0 = 100 ∧ 64 ≤ p1 ∧ p1 ≤ 127) ∨ (p0 = 169 ∧ p1 = 254))))
    ∧ (∀ (ip : String) (c0 c1 c2 c3 : Char) (rest : List Char) (v : List Nat),
        ip.toList = c0 :: c1 :: c2 :: c3 :: ':' :: rest →
        isHexDigit c0 = true → isHexDigit c1 = true → isHexDigit c2 = true →
        isHexDigit c3 = true →
        ipv6Groups ip = some v →
        isPrivateIPv6 ip = (inFe80 ip || inFc00 ip))
    ∧ isPrivateIPv6 "::1" = true ∧ isLoopback6 "::1" = true := by
  refine ⟨?_, ?_, by decide, by decide⟩
  · intro p0 p1 p2 p3 hb0 hb1 hb2 hb3
    have hdots : ∀ g ∈ [natDigits p0, natDigits p1, natDigits p2, natDigits p3],
        '.' ∉ g := by
      intro g hg
      simp only [List.mem_cons, List.not_mem_nil, or_false] at hg
      rcases hg with rfl | rfl | rfl | rfl <;> exact natDigits_no_dot _
    have hsp : splitOnChar '.' (joinSep ['.'] [natDigits p0, natDigits p1,
          natDigits p2, natDigits p3])
        = [natDigits p0, natDigits p1, natDigits p2, natDigits p3] :=
      splitOnChar_joinSep '.' _ (by simp) hdots
    have htl : ((joinSep ['.'] [natDigits p0, natDigits p1, natDigits p2,
          natDigits p3]).asString).toList
        = joinSep ['.'] [natDigits p0, natDigits p1, natDigits p2, natDigits p3] := rfl
    simp only [isPrivateIPv4, htl, hsp, List.map_cons, List.map_nil, jsNumber_natDigits,
      List.length_cons, List.length_nil, List.getD_cons_zero, List.getD_cons_succ,
      optEq, optGe, optLe]
    norm_num
    tauto
  · intro ip c0 c1 c2 c3 rest v hip hh0 hh1 hh2 hh3 hv
    have hd0 : toLowerAscii c0 ∈ hexChars := hex_lower_mem c0 hh0
    have hd1 : toLowerAscii c1 ∈ hexChars := hex_lower_mem c1 hh1
    have hd2 : toLowerAscii c2 ∈ hexChars := hex_lower_mem c2 hh2
    have hd3 : toLowerAscii c3 ∈ hexChars := hex_lower_mem c3 hh3
    have hn0 : toLowerAscii c0 ≠ ':' := hex_ne_colon _ hd0
    have hn1 : toLowerAscii c1 ≠ ':' := hex_ne_colon _ hd1
    have hn2 : toLowerAscii c2 ≠ ':' := hex_ne_colon _ hd2
    have hn3 : toLowerAscii c3 ≠ ':' := hex_ne_colon _ hd3
    have hlow : ip.toList.map toLowerAscii
        = toLowerAscii c0 :: toLowerAscii c1 :: toLowerAscii c2 :: toLowerAscii c3
          :: ':' :: rest.map toLowerAscii := by
      rw [hip]
      simp only [List.map_cons]
      rw [show toLowerAscii ':' = ':' from rfl]
    obtain ⟨t, hexp⟩ := expandIPv6Core_head _ _ _ _ (rest.map toLowerAscii)
      hn0 hn1 hn2 hn3
    have hnc4 : ':' ∉ [toLowerAscii c0, toLowerAscii c1, toLowerAscii c2,
        toLowerAscii c3] := by
      intro hm
      simp only [List.mem_cons, List.not_mem_nil, or_false] at hm
      rcases hm with e | e | e | e
      exacts [hn0 e.symm, hn1 e.symm, hn2 e.symm, hn3 e.symm]
    have hsplit : splitOnChar ':' (expandIPv6Core (ip.toList.map toLowerAscii))
        = [toLowerAscii c0, toLowerAscii c1, toLowerAscii c2, toLowerAscii c3]
          :: splitOnChar ':' t := by
      rw [hlow, hexp]
      exact splitOnChar_append ':' [toLowerAscii c0, toLowerAscii c1, toLowerAscii c2,
        toLowerAscii c3] t hnc4
    have hgrp : ipv6Groups ip
        = some (hexVal [toLowerAscii c0, toLowerAscii c1, toLowerAscii c2,
            toLowerAscii c3] :: (splitOnChar ':' t).map hexVal) := by
      simp only [ipv6Groups, hsplit] at hv ⊢
      split at hv
      · next hcond =>
        rw [if_pos hcond]
        simp only [List.map_cons]
      · exact absurd hv (by simp)
    have hne_loop : (toLowerAscii c0 :: toLowerAscii c1 :: toLowerAscii c2
        :: toLowerAscii c3 :: ':' :: rest.map toLowerAscii) ≠ [':', ':', '1'] := by
      intro he
      have hlen := congrArg List.length he
      simp at hlen
    have lhs_eq : isPrivateIPv6 ip
        = ((toLowerAscii c0 == 'f' && toLowerAscii c1 == 'e'
            && (toLowerAscii c2 == '8' || toLowerAscii c2 == '9'
                || toLowerAscii c2 == 'a' || toLowerAscii c2 == 'b'))
           || (toLowerAscii c0 == 'f'
              && (toLowerAscii c1 == 'c' || toLowerAscii c1 == 'd'))) := by
      simp only [isPrivateIPv6, hlow, testFe89ab, testFcd, decide_eq_false hne_loop,
        Bool.or_false]
    have rhs1 : inFe80 ip
        = decide (0xfe80 ≤ hexVal [toLowerAscii c0, toLowerAscii c1, toLowerAscii c2,
              toLowerAscii c3]
            ∧ hexVal [toLowerAscii c0, toLowerAscii c1, toLowerAscii c2,
              toLowerAscii c3] ≤ 0xfebf) := by
      simp only [inFe80, hgrp]
    have rhs2 : inFc00 ip
        = decide (0xfc00 ≤ hexVal [toLowerAscii c0, toLowerAscii c1, toLowerAscii c2,
              toLowerAscii c3]
            ∧ hexVal [toLowerAscii c0, toLowerAscii c1, toLowerAscii c2,
              toLowerAscii c3] ≤ 0xfdff) := by
      simp only [inFc00, hgrp]
    rw [lhs_eq, rhs1, rhs2]
    exact isPriv6_value_iff _ _ _ _ hd0 hd1 hd2 hd3

/-- Witness for the amended C6: the spec's concrete examples, the first
obtained through the range characterization. -/
theorem C6_witness :
    isPrivateIPv4 "192.168.1.1" = true ∧ isPrivateIPv4 "8.8.8.8" = false := by
  constructor
  · have h := C6_private_ranges.1 192 168 1 1 (by decide) (by decide) (by decide)
      (by decide)
    rw [show (joinSep ['.'] [natDigits 192, natDigits 168, natDigits 1,
        natDigits 1]).asString = "192.168.1.1" from by
      rw [show natDigits 192 = ['1', '9', '2'] from by
          rw [natDigits, natDigits, natDigits]; norm_num <;> decide,
        show natDigits 168 = ['1', '6', '8'] from by
          rw [natDigits, natDigits, natDigits]; norm_num <;> decide,
        show natDigits 1 = ['1'] from by rw [natDigits]; norm_num <;> decide]
      decide] at h
    exact h.mpr (Or.inr (Or.inr (Or.inl ⟨rfl, rfl⟩)))
  · decide
